import Mathlib

/-!
Verification of the daily vehicle summary aggregation job
(scripts/daily_aggregation.py) against its natural-language specification.

The core of the program is `compute_summary`, a single forward pass over a
vehicle's time-ordered telemetry rows, together with the great-circle
distance helper `haversine_km`.  We embed both shallowly: Python floats
become real numbers, timestamps become real-valued seconds (the code only
ever uses `(curr_ts - prev_ts).total_seconds()`), the row dictionaries
become a structure, and the result dictionary becomes a structure.
Python's `round(x, 2)` is modelled as rounding `100 * x` to the nearest
integer and dividing by 100.
-/

noncomputable section

open Real

/-- One telemetry row: `{ts, latitude, longitude, speed, engine_status}`
as fetched by `fetch_daily_telemetry` (time-ordered by the caller).
`ts` is in seconds; the code only uses differences of timestamps. -/
structure Row where
  ts : ℝ
  latitude : ℝ
  longitude : ℝ
  speed : ℝ
  engine_status : Bool

/-- The summary record returned by `compute_summary`. -/
structure Summary where
  vehicle_id : ℤ
  summary_date : ℤ
  total_distance_km : ℝ
  avg_speed : ℝ
  max_speed : ℝ
  total_points : ℕ
  speeding_violations : ℕ
  critical_violations : ℕ
  engine_off_moving : ℕ
  total_driving_minutes : ℝ

/-- Python's `math.atan2 y x` over the reals (signed zeros do not exist
in `ℝ`, so the `x = 0` branches collapse to the sign of `y`). -/
def atan2 (y x : ℝ) : ℝ :=
  if 0 < x then Real.arctan (y / x)
  else if x < 0 then
    (if 0 ≤ y then Real.arctan (y / x) + Real.pi
     else Real.arctan (y / x) - Real.pi)
  else
    (if 0 < y then Real.pi / 2
     else if y < 0 then -(Real.pi / 2)
     else 0)

/-- Degrees to radians, Python's `math.radians x`. -/
def radians (x : ℝ) : ℝ := x * Real.pi / 180

/-- The source's `haversine_km(lat1, lon1, lat2, lon2)`: spherical-Earth
great-circle distance in km, Earth radius 6371.0 km. -/
def haversine_km (lat1 lon1 lat2 lon2 : ℝ) : ℝ :=
  let R : ℝ := 6371.0
  let dlat := radians (lat2 - lat1)
  let dlon := radians (lon2 - lon1)
  let a := Real.sin (dlat / 2) ^ 2
    + Real.cos (radians lat1) * Real.cos (radians lat2) * Real.sin (dlon / 2) ^ 2
  R * 2 * atan2 (Real.sqrt a) (Real.sqrt (1 - a))

/-- Python's `round(x, 2)`: round to two decimal places. -/
def round2 (x : ℝ) : ℝ := (round (x * 100) : ℤ) / 100

/-- Python's `max` on a non-empty list (the `[]` case is never reached:
the code guards `max(speeds)` with `if speeds`). -/
def pymax : List ℝ → ℝ
  | [] => 0
  | x :: xs => xs.foldl max x

/-- Python's `sum` on a list of floats. -/
def pysum (l : List ℝ) : ℝ := l.sum

/-- The running totals carried by the loop in `compute_summary`. -/
structure LoopState where
  total_distance : ℝ
  speeds : List ℝ
  speeding : ℕ
  critical : ℕ
  engine_off_moving : ℕ
  driving_seconds : ℝ

/-- The body of `for i, row in enumerate(rows)` in `compute_summary`:
`prev?` is `rows[i-1]` when `i > 0` and `none` when `i = 0`. -/
def loopBody (prev? : Option Row) (st : LoopState) (row : Row) : LoopState :=
  let speed := row.speed
  let speeds := st.speeds ++ [speed]
  let total_distance :=
    match prev? with
    | none => st.total_distance
    | some prev =>
      let dist := haversine_km prev.latitude prev.longitude row.latitude row.longitude
      if dist < 50 then st.total_distance + dist else st.total_distance
  let counts :=
    if 120 < speed then (st.critical + 1, st.speeding)
    else if 80 < speed then (st.critical, st.speeding + 1)
    else (st.critical, st.speeding)
  let engine_off_moving :=
    if row.engine_status = false ∧ 0 < speed then st.engine_off_moving + 1
    else st.engine_off_moving
  let driving_seconds :=
    match prev? with
    | none => st.driving_seconds
    | some prev =>
      if row.engine_status then
        (let delta := row.ts - prev.ts
         if delta < 300 then st.driving_seconds + delta else st.driving_seconds)
      else st.driving_seconds
  ⟨total_distance, speeds, counts.2, counts.1, engine_off_moving, driving_seconds⟩

/-- The whole loop of `compute_summary`, threading the previous row. -/
def runLoop : Option Row → LoopState → List Row → LoopState
  | _, st, [] => st
  | prev?, st, r :: rs => runLoop (some r) (loopBody prev? st r) rs

/-- The initial running totals (`total_distance = 0.0`, `speeds = []`,
`speeding = critical = engine_off_moving = 0`, `driving_seconds = 0.0`). -/
def initState : LoopState := ⟨0, [], 0, 0, 0, 0⟩

/-- The source's `compute_summary(vehicle_id, target_date, rows)`. -/
def compute_summary (vehicle_id : ℤ) (target_date : ℤ) (rows : List Row) : Summary :=
  if rows.isEmpty then
    ⟨vehicle_id, target_date, 0, 0, 0, 0, 0, 0, 0, 0⟩
  else
    let st := runLoop none initState rows
    ⟨vehicle_id, target_date,
      round2 st.total_distance,
      (if st.speeds.isEmpty then 0 else round2 (pysum st.speeds / st.speeds.length)),
      (if st.speeds.isEmpty then 0 else round2 (pymax st.speeds)),
      rows.length,
      st.speeding,
      st.critical,
      st.engine_off_moving,
      round2 (st.driving_seconds / 60)⟩

/-- Per-point count of critical violations (`speed > 120`). -/
def countCrit : List Row → ℕ
  | [] => 0
  | r :: rs => (if 120 < r.speed then 1 else 0) + countCrit rs

/-- Per-point count of speeding violations (`80 < speed ≤ 120`),
the `elif speed > 80` branch. -/
def countSpeeding : List Row → ℕ
  | [] => 0
  | r :: rs => (if 80 < r.speed ∧ r.speed ≤ 120 then 1 else 0) + countSpeeding rs

/-- Per-point count of engine-off-moving samples. -/
def countEngineOff : List Row → ℕ
  | [] => 0
  | r :: rs =>
    (if r.engine_status = false ∧ 0 < r.speed then 1 else 0) + countEngineOff rs

/-- Driving seconds contributed by the consecutive pairs of `p :: rows`:
a pair contributes its gap exactly when the current point's engine is on
and the gap is strictly below 300 seconds. -/
def drivePairs : Row → List Row → ℝ
  | _, [] => 0
  | p, r :: rs =>
    (if r.engine_status = true ∧ r.ts - p.ts < 300 then r.ts - p.ts else 0)
      + drivePairs r rs

/-- Distance contributed by the consecutive pairs of `p :: rows`:
a pair contributes its haversine distance exactly when that distance is
strictly below 50 km. -/
def distPairs : Row → List Row → ℝ
  | _, [] => 0
  | p, r :: rs =>
    (let d := haversine_km p.latitude p.longitude r.latitude r.longitude
     if d < 50 then d else 0) + distPairs r rs

lemma runLoop_speeds (rows : List Row) :
    ∀ (prev? : Option Row) (st : LoopState),
      (runLoop prev? st rows).speeds = st.speeds ++ rows.map Row.speed := by
  induction rows with
  | nil => intro prev? st; simp [runLoop]
  | cons r rs ih =>
    intro prev? st
    simp [runLoop, ih, loopBody]

lemma runLoop_critical (rows : List Row) :
    ∀ (prev? : Option Row) (st : LoopState),
      (runLoop prev? st rows).critical = st.critical + countCrit rows := by
  induction rows with
  | nil => intro prev? st; simp [runLoop, countCrit]
  | cons r rs ih =>
    intro prev? st
    simp only [runLoop, ih, countCrit, loopBody]
    split_ifs <;> omega

lemma runLoop_speeding (rows : List Row) :
    ∀ (prev? : Option Row) (st : LoopState),
      (runLoop prev? st rows).speeding = st.speeding + countSpeeding rows := by
  induction rows with
  | nil => intro prev? st; simp [runLoop, countSpeeding]
  | cons r rs ih =>
    intro prev? st
    simp only [runLoop, ih, countSpeeding, loopBody]
    rcases lt_or_le 120 r.speed with h120 | h120
    · rw [if_pos h120, if_neg (by simp [not_lt.mpr, h120.le]; intro; linarith)]
      simp
    · rw [if_neg (not_lt.mpr h120)]
      rcases lt_or_le 80 r.speed with h80 | h80
      · rw [if_pos h80, if_pos ⟨h80, h120⟩]
        simp [Nat.add_assoc, Nat.add_comm 1]
      · rw [if_neg (not_lt.mpr h80), if_neg (by rintro ⟨h, -⟩; exact absurd h (not_lt.mpr h80))]
        simp

lemma runLoop_engineOff (rows : List Row) :
    ∀ (prev? : Option Row) (st : LoopState),
      (runLoop prev? st rows).engine_off_moving
        = st.engine_off_moving + countEngineOff rows := by
  induction rows with
  | nil => intro prev? st; simp [runLoop, countEngineOff]
  | cons r rs ih =>
    intro prev? st
    simp only [runLoop, ih, countEngineOff, loopBody]
    split_ifs <;> omega

lemma runLoop_driving (rows : List Row) :
    ∀ (p : Row) (st : LoopState),
      (runLoop (some p) st rows).driving_seconds
        = st.driving_seconds + drivePairs p rows := by
  induction rows with
  | nil => intro p st; simp [runLoop, drivePairs]
  | cons r rs ih =>
    intro p st
    simp only [runLoop, ih, drivePairs, loopBody]
    by_cases hb : r.engine_status
    · simp only [hb, if_true, true_and]
      rcases lt_or_le (r.ts - p.ts) 300 with hlt | hge
      · rw [if_pos hlt, if_pos hlt]; ring
      · rw [if_neg (not_lt.mpr hge), if_neg (not_lt.mpr hge)]; ring
    · simp only [Bool.not_eq_true] at hb
      simp [hb]

lemma runLoop_distance (rows : List Row) :
    ∀ (p : Row) (st : LoopState),
      (runLoop (some p) st rows).total_distance
        = st.total_distance + distPairs p rows := by
  induction rows with
  | nil => intro p st; simp [runLoop, distPairs]
  | cons r rs ih =>
    intro p st
    simp only [runLoop, ih, distPairs, loopBody]
    split_ifs <;> ring

lemma runLoop_cons_driving (r : Row) (rs : List Row) :
    (runLoop none initState (r :: rs)).driving_seconds = drivePairs r rs := by
  simp [runLoop, runLoop_driving, loopBody, initState]

lemma runLoop_cons_distance (r : Row) (rs : List Row) :
    (runLoop none initState (r :: rs)).total_distance = distPairs r rs := by
  simp [runLoop, runLoop_distance, loopBody, initState]

/-- Closed form of `compute_summary` on a non-empty row list. -/
lemma compute_summary_cons (v d : ℤ) (r : Row) (rs : List Row) :
    compute_summary v d (r :: rs) =
      ⟨v, d,
        round2 (distPairs r rs),
        round2 (pysum ((r :: rs).map Row.speed) / ((r :: rs).map Row.speed).length),
        round2 (pymax ((r :: rs).map Row.speed)),
        (r :: rs).length,
        countSpeeding (r :: rs),
        countCrit (r :: rs),
        countEngineOff (r :: rs),
        round2 (drivePairs r rs / 60)⟩ := by
  have hs : (runLoop none initState (r :: rs)).speeds = (r :: rs).map Row.speed := by
    rw [runLoop_speeds]; simp [initState]
  have hcr : (runLoop none initState (r :: rs)).critical = countCrit (r :: rs) := by
    rw [runLoop_critical]; simp [initState]
  have hsp : (runLoop none initState (r :: rs)).speeding = countSpeeding (r :: rs) := by
    rw [runLoop_speeding]; simp [initState]
  have heo : (runLoop none initState (r :: rs)).engine_off_moving
      = countEngineOff (r :: rs) := by
    rw [runLoop_engineOff]; simp [initState]
  have hdr := runLoop_cons_driving r rs
  have hdi := runLoop_cons_distance r rs
  simp only [compute_summary, List.isEmpty_cons, Bool.false_eq_true, if_false,
    hs, hcr, hsp, heo, hdr, hdi]
  simp [List.map_cons]

lemma round2_zero : round2 0 = 0 := by
  simp [round2]

lemma countCrit_add_countSpeeding_le (rows : List Row) :
    countCrit rows + countSpeeding rows ≤ rows.length := by
  induction rows with
  | nil => simp [countCrit, countSpeeding]
  | cons r rs ih =>
    simp only [countCrit, countSpeeding, List.length_cons]
    rcases lt_or_le 120 r.speed with h | h
    · rw [if_pos h, if_neg (by rintro ⟨-, hle⟩; linarith)]
      omega
    · rw [if_neg (not_lt.mpr h)]
      split_ifs <;> omega

lemma countEngineOff_le (rows : List Row) :
    countEngineOff rows ≤ rows.length := by
  induction rows with
  | nil => simp [countEngineOff]
  | cons r rs ih =>
    simp only [countEngineOff, List.length_cons]
    split_ifs <;> omega

/-- C5: on an empty point sequence, `compute_summary` returns a record with
the given identity and every numeric field equal to 0 (all fields present). -/
theorem claim_C5_empty_input (v d : ℤ) :
    (compute_summary v d []).vehicle_id = v
    ∧ (compute_summary v d []).summary_date = d
    ∧ (compute_summary v d []).total_distance_km = 0
    ∧ (compute_summary v d []).avg_speed = 0
    ∧ (compute_summary v d []).max_speed = 0
    ∧ (compute_summary v d []).total_points = 0
    ∧ (compute_summary v d []).speeding_violations = 0
    ∧ (compute_summary v d []).critical_violations = 0
    ∧ (compute_summary v d []).engine_off_moving = 0
    ∧ (compute_summary v d []).total_driving_minutes = 0 := by
  simp [compute_summary]

/-- C8: the aggregation is deterministic — two runs of `compute_summary` on
the same vehicle, date and point sequence return equal summary records. -/
theorem claim_C8_deterministic (v v2 d d2 : ℤ) (rows rows2 : List Row)
    (hv : v = v2) (hd : d = d2) (hrows : rows = rows2) :
    compute_summary v d rows = compute_summary v2 d2 rows2 := by
  rw [hv, hd, hrows]

theorem claim_C8_deterministic_witness :
    compute_summary 7 0 [⟨0, 10, 106, 0, false⟩]
      = compute_summary 7 0 [⟨0, 10, 106, 0, false⟩] :=
  claim_C8_deterministic 7 7 0 0 [⟨0, 10, 106, 0, false⟩] [⟨0, 10, 106, 0, false⟩]
    rfl rfl rfl

/-- C9: count invariants — the two violation counters sum to at most
`total_points`, `engine_off_moving` is at most `total_points`, and
`total_points` is the length of the input (all counters live in `ℕ`,
hence are non-negative integers). -/
theorem claim_C9_count_bounds (v d : ℤ) (rows : List Row) :
    (compute_summary v d rows).speeding_violations
        + (compute_summary v d rows).critical_violations
        ≤ (compute_summary v d rows).total_points
    ∧ (compute_summary v d rows).engine_off_moving
        ≤ (compute_summary v d rows).total_points
    ∧ (compute_summary v d rows).total_points = rows.length := by
  cases rows with
  | nil => simp [compute_summary]
  | cons r rs =>
    rw [compute_summary_cons]
    dsimp only
    refine ⟨?_, ?_, rfl⟩
    · have := countCrit_add_countSpeeding_le (r :: rs)
      omega
    · exact countEngineOff_le (r :: rs)

/-- C10: a single-point input yields zero distance and zero driving time,
`avg_speed = max_speed = round2 speed`, and `total_points = 1`. -/
theorem claim_C10_single_point (v d : ℤ) (r : Row) :
    (compute_summary v d [r]).total_distance_km = 0
    ∧ (compute_summary v d [r]).total_driving_minutes = 0
    ∧ (compute_summary v d [r]).avg_speed = round2 r.speed
    ∧ (compute_summary v d [r]).max_speed = round2 r.speed
    ∧ (compute_summary v d [r]).total_points = 1 := by
  rw [compute_summary_cons]
  refine ⟨?_, ?_, ?_, ?_, rfl⟩
  · simp [distPairs, round2]
  · simp [drivePairs, round2]
  · simp [pysum, pymax]
  · simp [pymax]

/-- C4: critical/speeding buckets are mutually exclusive with critical
taking precedence — the counters count exactly the points with
`speed > 120` resp. `80 < speed ≤ 120`, and no point satisfies both. -/
theorem claim_C4_violation_buckets (v d : ℤ) (rows : List Row) :
    (compute_summary v d rows).critical_violations = countCrit rows
    ∧ (compute_summary v d rows).speeding_violations = countSpeeding rows
    ∧ ∀ r : Row, ¬(120 < r.speed ∧ (80 < r.speed ∧ r.speed ≤ 120)) := by
  refine ⟨?_, ?_, ?_⟩
  · cases rows with
    | nil => simp [compute_summary, countCrit]
    | cons r rs => rw [compute_summary_cons]
  · cases rows with
    | nil => simp [compute_summary, countSpeeding]
    | cons r rs => rw [compute_summary_cons]
  · rintro r ⟨h1, -, h3⟩
    linarith

theorem claim_C4_violation_buckets_witness :
    (compute_summary 7 0 [⟨0, 10, 106, 130, true⟩]).critical_violations
      = countCrit [⟨0, 10, 106, 130, true⟩] :=
  (claim_C4_violation_buckets 7 0 [⟨0, 10, 106, 130, true⟩]).1

lemma le_foldl_max (xs : List ℝ) : ∀ a : ℝ, a ≤ xs.foldl max a := by
  induction xs with
  | nil => intro a; exact le_refl a
  | cons x xs ih => intro a; exact le_trans (le_max_left a x) (ih (max a x))

lemma mem_le_foldl_max (xs : List ℝ) : ∀ (a x : ℝ), x ∈ xs → x ≤ xs.foldl max a := by
  induction xs with
  | nil => intro a x hx; simp at hx
  | cons y ys ih =>
    intro a x hx
    rcases List.mem_cons.mp hx with h | h
    · subst h
      exact le_trans (le_max_right a x) (le_foldl_max ys (max a x))
    · exact ih (max a y) x h

lemma foldl_max_mem (xs : List ℝ) : ∀ a : ℝ, xs.foldl max a ∈ a :: xs := by
  induction xs with
  | nil => intro a; simp
  | cons x xs ih =>
    intro a
    rcases List.mem_cons.mp (ih (max a x)) with h | h
    · rcases max_choice a x with hm | hm
      · rw [List.foldl_cons, h, hm]
        exact List.mem_cons_self a (x :: xs)
      · rw [List.foldl_cons, h, hm]
        exact List.mem_cons_of_mem a (List.mem_cons_self x xs)
    · simp only [List.foldl_cons]
      exact List.mem_cons_of_mem a (List.mem_cons_of_mem x h)

lemma pymax_mem (x : ℝ) (xs : List ℝ) : pymax (x :: xs) ∈ x :: xs :=
  foldl_max_mem xs x

lemma le_pymax (x : ℝ) (xs : List ℝ) : ∀ y ∈ x :: xs, y ≤ pymax (x :: xs) := by
  intro y hy
  rcases List.mem_cons.mp hy with h | h
  · subst h; exact le_foldl_max xs y
  · exact mem_le_foldl_max xs x y h

/-- C7: on a non-empty input, `avg_speed` is the arithmetic mean of all the
points' speeds (first point included) rounded to 2 decimals, and
`max_speed` is their maximum rounded to 2 decimals. -/
theorem claim_C7_speed_stats (v d : ℤ) (r : Row) (rs : List Row) :
    (compute_summary v d (r :: rs)).avg_speed
      = round2 (((r :: rs).map Row.speed).sum / ((r :: rs).length : ℝ))
    ∧ (compute_summary v d (r :: rs)).max_speed
      = round2 (pymax ((r :: rs).map Row.speed))
    ∧ pymax ((r :: rs).map Row.speed) ∈ (r :: rs).map Row.speed
    ∧ ∀ x ∈ (r :: rs).map Row.speed, x ≤ pymax ((r :: rs).map Row.speed) := by
  refine ⟨?_, ?_, ?_, ?_⟩
  · rw [compute_summary_cons]
    simp [pysum]
  · rw [compute_summary_cons]
  · exact pymax_mem r.speed (rs.map Row.speed)
  · exact le_pymax r.speed (rs.map Row.speed)

theorem claim_C7_speed_stats_witness :
    (compute_summary 7 0 [⟨0, 10, 106, 90, true⟩]).max_speed
      = round2 (pymax (([⟨0, 10, 106, 90, true⟩] : List Row).map Row.speed)) :=
  (claim_C7_speed_stats 7 0 ⟨0, 10, 106, 90, true⟩ []).2.1

/-- The driving-time contribution of one consecutive pair (`p` previous,
`c` current): the elapsed gap when the current point's engine is on and
the gap is under 300 seconds, otherwise 0. -/
def pairContribDrive (p c : Row) : ℝ :=
  if c.engine_status = true ∧ c.ts - p.ts < 300 then c.ts - p.ts else 0

lemma drivePairs_eq_zip (rs : List Row) : ∀ p : Row,
    drivePairs p rs
      = (((p :: rs).zip rs).map fun q => pairContribDrive q.1 q.2).sum := by
  induction rs with
  | nil => intro p; simp [drivePairs]
  | cons c cs ih =>
    intro p
    simp only [drivePairs, List.zip_cons_cons, List.map_cons, List.sum_cons,
      ih c, pairContribDrive]

/-- C2: driving time is the sum over consecutive pairs of the elapsed gap,
counted in full exactly when the current point's engine is on and the gap
is strictly under 300 s, counted as 0 when the gap is ≥ 300 s or the
engine is off; `total_driving_minutes` is that sum over 60, rounded to 2
decimal places. -/
theorem claim_C2_driving_time (v d : ℤ) (r : Row) (rs : List Row) :
    (compute_summary v d (r :: rs)).total_driving_minutes
      = round2 (((((r :: rs).zip rs).map fun q => pairContribDrive q.1 q.2).sum) / 60)
    ∧ (∀ p c : Row, c.engine_status = true → c.ts - p.ts < 300 →
        pairContribDrive p c = c.ts - p.ts)
    ∧ (∀ p c : Row, 300 ≤ c.ts - p.ts → pairContribDrive p c = 0)
    ∧ (∀ p c : Row, c.engine_status = false → pairContribDrive p c = 0) := by
  refine ⟨?_, ?_, ?_, ?_⟩
  · rw [compute_summary_cons]
    dsimp only
    rw [drivePairs_eq_zip]
  · intro p c h1 h2
    simp [pairContribDrive, h1, h2]
  · intro p c h2
    simp [pairContribDrive, not_lt.mpr h2]
  · intro p c h1
    simp [pairContribDrive, h1]

theorem claim_C2_driving_time_witness :
    pairContribDrive ⟨0, 10, 106, 0, false⟩ ⟨600, 10.001, 106, 90, true⟩ = 0 :=
  (claim_C2_driving_time 7 0 ⟨0, 10, 106, 0, false⟩ [⟨600, 10.001, 106, 90, true⟩]).2.2.1
    ⟨0, 10, 106, 0, false⟩ ⟨600, 10.001, 106, 90, true⟩ (by norm_num)

/-- The distance contribution of one consecutive pair: the haversine
distance when it is under 50 km, otherwise 0 (GPS-jump rejection). -/
def pairContribDist (p c : Row) : ℝ :=
  if haversine_km p.latitude p.longitude c.latitude c.longitude < 50
  then haversine_km p.latitude p.longitude c.latitude c.longitude else 0

lemma distPairs_eq_zip (rs : List Row) : ∀ p : Row,
    distPairs p rs
      = (((p :: rs).zip rs).map fun q => pairContribDist q.1 q.2).sum := by
  induction rs with
  | nil => intro p; simp [distPairs]
  | cons c cs ih =>
    intro p
    simp only [distPairs, List.zip_cons_cons, List.map_cons, List.sum_cons,
      ih c, pairContribDist]

/-- Two rows that agree on everything the non-distance metrics read:
timestamp, speed and engine status (coordinates may differ). -/
def sameKin (a b : Row) : Prop :=
  a.ts = b.ts ∧ a.speed = b.speed ∧ a.engine_status = b.engine_status

lemma sameKin_map_speed {rows rows' : List Row}
    (h : List.Forall₂ sameKin rows rows') :
    rows.map Row.speed = rows'.map Row.speed := by
  induction h with
  | nil => rfl
  | cons hab h ih => simp [List.map_cons, hab.2.1, ih]

lemma sameKin_countCrit {rows rows' : List Row}
    (h : List.Forall₂ sameKin rows rows') :
    countCrit rows = countCrit rows' := by
  induction h with
  | nil => rfl
  | cons hab h ih => simp only [countCrit, hab.2.1, ih]

lemma sameKin_countSpeeding {rows rows' : List Row}
    (h : List.Forall₂ sameKin rows rows') :
    countSpeeding rows = countSpeeding rows' := by
  induction h with
  | nil => rfl
  | cons hab h ih => simp only [countSpeeding, hab.2.1, ih]

lemma sameKin_countEngineOff {rows rows' : List Row}
    (h : List.Forall₂ sameKin rows rows') :
    countEngineOff rows = countEngineOff rows' := by
  induction h with
  | nil => rfl
  | cons hab h ih => simp only [countEngineOff, hab.2.1, hab.2.2, ih]

lemma sameKin_drivePairs {rs rs' : List Row}
    (h : List.Forall₂ sameKin rs rs') :
    ∀ {p p' : Row}, sameKin p p' → drivePairs p rs = drivePairs p' rs' := by
  induction h with
  | nil => intro p p' hp; rfl
  | cons hab h ih =>
    intro p p' hp
    simp only [drivePairs]
    rw [hab.1, hab.2.2, hp.1, ih hab]

/-- C3: a consecutive pair at haversine distance ≥ 50 km contributes 0 to
`total_distance_km` while pairs under 50 km contribute their distance
(`total_distance_km` is the rounded sum of these contributions), and all
non-distance metrics only depend on timestamps, speeds and engine flags,
so they are unchanged by any change of coordinates. -/
theorem claim_C3_distance_filter (v d : ℤ) (r : Row) (rs : List Row)
    (r' : Row) (rs' : List Row)
    (h : List.Forall₂ sameKin (r :: rs) (r' :: rs')) :
    (compute_summary v d (r :: rs)).total_distance_km
      = round2 ((((r :: rs).zip rs).map fun q => pairContribDist q.1 q.2).sum)
    ∧ (∀ p c : Row,
        50 ≤ haversine_km p.latitude p.longitude c.latitude c.longitude →
        pairContribDist p c = 0)
    ∧ (∀ p c : Row,
        haversine_km p.latitude p.longitude c.latitude c.longitude < 50 →
        pairContribDist p c
          = haversine_km p.latitude p.longitude c.latitude c.longitude)
    ∧ ((compute_summary v d (r :: rs)).avg_speed
          = (compute_summary v d (r' :: rs')).avg_speed
      ∧ (compute_summary v d (r :: rs)).max_speed
          = (compute_summary v d (r' :: rs')).max_speed
      ∧ (compute_summary v d (r :: rs)).total_points
          = (compute_summary v d (r' :: rs')).total_points
      ∧ (compute_summary v d (r :: rs)).speeding_violations
          = (compute_summary v d (r' :: rs')).speeding_violations
      ∧ (compute_summary v d (r :: rs)).critical_violations
          = (compute_summary v d (r' :: rs')).critical_violations
      ∧ (compute_summary v d (r :: rs)).engine_off_moving
          = (compute_summary v d (r' :: rs')).engine_off_moving
      ∧ (compute_summary v d (r :: rs)).total_driving_minutes
          = (compute_summary v d (r' :: rs')).total_driving_minutes) := by
  rcases List.forall₂_cons.mp h with ⟨hr, htail⟩
  have hmap := sameKin_map_speed h
  have hlen := List.Forall₂.length_eq h
  have hdrive := sameKin_drivePairs htail hr
  refine ⟨?_, ?_, ?_, ?_⟩
  · rw [compute_summary_cons]
    dsimp only
    rw [distPairs_eq_zip]
  · intro p c hge
    simp [pairContribDist, not_lt.mpr hge]
  · intro p c hlt
    simp [pairContribDist, hlt]
  · rw [compute_summary_cons, compute_summary_cons]
    dsimp only
    refine ⟨?_, ?_, ?_, ?_, ?_, ?_, ?_⟩
    · rw [hmap]
    · rw [hmap]
    · exact hlen
    · exact sameKin_countSpeeding h
    · exact sameKin_countCrit h
    · exact sameKin_countEngineOff h
    · rw [hdrive]

theorem claim_C3_distance_filter_witness :
    (compute_summary 0 0 [⟨0, 0, 0, 90, true⟩, ⟨60, 1, 1, 100, true⟩]).avg_speed
      = (compute_summary 0 0 [⟨0, 50, 50, 90, true⟩, ⟨60, 51, 51, 100, true⟩]).avg_speed :=
  (claim_C3_distance_filter 0 0 ⟨0, 0, 0, 90, true⟩ [⟨60, 1, 1, 100, true⟩]
      ⟨0, 50, 50, 90, true⟩ [⟨60, 51, 51, 100, true⟩]
      (List.Forall₂.cons ⟨rfl, rfl, rfl⟩
        (List.Forall₂.cons ⟨rfl, rfl, rfl⟩ List.Forall₂.nil))).2.2.2.1

lemma arctan_nonneg_of {x : ℝ} (h : 0 ≤ x) : 0 ≤ Real.arctan x := by
  have hm := Real.arctan_strictMono.monotone h
  rwa [Real.arctan_zero] at hm

lemma atan2_nonneg {y x : ℝ} (hy : 0 ≤ y) : 0 ≤ atan2 y x := by
  unfold atan2
  have hπ := Real.pi_pos
  have harc := Real.neg_pi_div_two_lt_arctan (y / x)
  split_ifs with h1 h2 h3 h4
  · exact arctan_nonneg_of (div_nonneg hy h1.le)
  all_goals linarith

lemma sin_sq_symm (x y : ℝ) :
    Real.sin (radians (x - y) / 2) ^ 2 = Real.sin (radians (y - x) / 2) ^ 2 := by
  have h : radians (x - y) / 2 = -(radians (y - x) / 2) := by
    unfold radians; ring
  rw [h, Real.sin_neg, neg_sq]

lemma haversine_self (lat lon : ℝ) : haversine_km lat lon lat lon = 0 := by
  simp [haversine_km, radians, atan2, Real.sqrt_one, Real.arctan_zero]

lemma haversine_comm (a b c d : ℝ) :
    haversine_km a b c d = haversine_km c d a b := by
  have hA : Real.sin (radians (c - a) / 2) ^ 2
        + Real.cos (radians a) * Real.cos (radians c)
          * Real.sin (radians (d - b) / 2) ^ 2
      = Real.sin (radians (a - c) / 2) ^ 2
        + Real.cos (radians c) * Real.cos (radians a)
          * Real.sin (radians (b - d) / 2) ^ 2 := by
    rw [sin_sq_symm c a, sin_sq_symm d b]; ring
  simp only [haversine_km]
  rw [hA]

lemma haversine_nonneg (a b c d : ℝ) : 0 ≤ haversine_km a b c d := by
  simp only [haversine_km]
  exact mul_nonneg (by norm_num) (atan2_nonneg (Real.sqrt_nonneg _))

lemma haversine_equator : haversine_km 0 0 1 0 = 6371 * Real.pi / 180 := by
  have hπ := Real.pi_pos
  have hπ4 := Real.pi_le_four
  have h0 : (0:ℝ) < Real.pi / 360 := by linarith
  have hlt : Real.pi / 360 < Real.pi / 2 := by linarith
  have hsin : 0 ≤ Real.sin (Real.pi / 360) :=
    Real.sin_nonneg_of_nonneg_of_le_pi h0.le (by linarith)
  have hcos : 0 < Real.cos (Real.pi / 360) :=
    Real.cos_pos_of_mem_Ioo ⟨by linarith, hlt⟩
  have harg : radians (1 - 0) / 2 = Real.pi / 360 := by
    unfold radians; ring
  have harg0 : radians (0 - 0) / 2 = 0 := by
    unfold radians; ring
  simp only [haversine_km, harg, harg0, Real.sin_zero]
  rw [show Real.sin (Real.pi / 360) ^ 2
        + Real.cos (radians 0) * Real.cos (radians 1) * 0 ^ 2
      = Real.sin (Real.pi / 360) ^ 2 by ring]
  rw [Real.sqrt_sq hsin]
  rw [show (1 : ℝ) - Real.sin (Real.pi / 360) ^ 2 = Real.cos (Real.pi / 360) ^ 2 by
    rw [Real.cos_sq']]
  rw [Real.sqrt_sq hcos.le]
  have hatan : atan2 (Real.sin (Real.pi / 360)) (Real.cos (Real.pi / 360))
      = Real.pi / 360 := by
    unfold atan2
    rw [if_pos hcos]
    rw [← Real.tan_eq_sin_div_cos]
    exact Real.arctan_tan (by linarith) hlt
  rw [hatan]
  ring

/-- C6: the haversine distance of a point to itself is 0, it is symmetric
in its two endpoints, it is always non-negative (hence a finite real
number), and two points one degree of latitude apart on the equator are
within 1% of 111 km apart. -/
theorem claim_C6_haversine_properties :
    (∀ lat lon : ℝ, haversine_km lat lon lat lon = 0)
    ∧ (∀ a b c d : ℝ, haversine_km a b c d = haversine_km c d a b)
    ∧ (∀ a b c d : ℝ, 0 ≤ haversine_km a b c d)
    ∧ |haversine_km 0 0 1 0 - 111| ≤ 111 / 100 := by
  refine ⟨haversine_self, haversine_comm, haversine_nonneg, ?_⟩
  rw [haversine_equator]
  have hlo := Real.pi_gt_d2
  have hhi := Real.pi_lt_d2
  rw [abs_le]
  norm_num at hlo hhi ⊢
  constructor <;> nlinarith

lemma round2_intCast (n : ℤ) : round2 ((n : ℝ)) = n := by
  unfold round2
  rw [show ((n : ℝ) * 100) = (((n * 100 : ℤ) : ℝ)) by push_cast; ring]
  rw [round_intCast]
  push_cast
  rw [mul_div_assoc]
  norm_num

/-- The three telemetry points of the spec's end-to-end scenario. -/
def scenarioRows : List Row :=
  [⟨0, 10, 106, 0, false⟩, ⟨60, 10.001, 106, 90, true⟩, ⟨120, 10.002, 106, 130, true⟩]

/-- C1 (counterexample): on the spec's three-point scenario the code counts
both 60-second gaps (the current point's engine is on for both pairs), so
`total_driving_minutes` is 2.0, not the claimed 1.0. -/
theorem claim_C1_counterexample :
    (compute_summary 7 0 scenarioRows).total_driving_minutes = 2
    ∧ (compute_summary 7 0 scenarioRows).total_driving_minutes ≠ 1 := by
  have h2 : (compute_summary 7 0 scenarioRows).total_driving_minutes = 2 := by
    rw [show scenarioRows
        = ⟨0, 10, 106, 0, false⟩ ::
            [⟨60, 10.001, 106, 90, true⟩, ⟨120, 10.002, 106, 130, true⟩] from rfl,
      compute_summary_cons]
    dsimp only
    rw [show drivePairs (⟨0, 10, 106, 0, false⟩ : Row)
        [⟨60, 10.001, 106, 90, true⟩, ⟨120, 10.002, 106, 130, true⟩] = 120 by
      norm_num [drivePairs]]
    rw [show (120 : ℝ) / 60 = ((2 : ℤ) : ℝ) by norm_num]
    rw [round2_intCast]
    norm_num
  exact ⟨h2, by rw [h2]; norm_num⟩

/-- C1 (amended): on the spec's three-point scenario `compute_summary`
returns `total_points = 3`, `speeding_violations = 1`,
`critical_violations = 1`, `engine_off_moving = 0`, `max_speed = 130.0`
and `total_driving_minutes = 2.0` (both 60-second engine-on gaps count). -/
theorem claim_C1_scenario :
    (compute_summary 7 0 scenarioRows).total_points = 3
    ∧ (compute_summary 7 0 scenarioRows).speeding_violations = 1
    ∧ (compute_summary 7 0 scenarioRows).critical_violations = 1
    ∧ (compute_summary 7 0 scenarioRows).engine_off_moving = 0
    ∧ (compute_summary 7 0 scenarioRows).max_speed = 130
    ∧ (compute_summary 7 0 scenarioRows).total_driving_minutes = 2 := by
  rw [show scenarioRows
      = ⟨0, 10, 106, 0, false⟩ ::
          [⟨60, 10.001, 106, 90, true⟩, ⟨120, 10.002, 106, 130, true⟩] from rfl,
    compute_summary_cons]
  dsimp only
  refine ⟨rfl, ?_, ?_, ?_, ?_, ?_⟩
  · norm_num [countSpeeding]
  · norm_num [countCrit]
  · norm_num [countEngineOff]
  · rw [show pymax (List.map Row.speed
        (⟨0, 10, 106, 0, false⟩ ::
          [⟨60, 10.001, 106, 90, true⟩, ⟨120, 10.002, 106, 130, true⟩]))
      = ((130 : ℤ) : ℝ) by norm_num [pymax, max_def]]
    rw [round2_intCast]
    norm_num
  · rw [show drivePairs (⟨0, 10, 106, 0, false⟩ : Row)
        [⟨60, 10.001, 106, 90, true⟩, ⟨120, 10.002, 106, 130, true⟩] = 120 by
      norm_num [drivePairs]]
    rw [show (120 : ℝ) / 60 = ((2 : ℤ) : ℝ) by norm_num]
    rw [round2_intCast]
    norm_num

end
